import Mathlib

/-!
Shallow embedding of the storage core of the `database_management` repository:
the hash-table bucket page, the hash-table directory page, the extendible hash
table, the LRU replacer, the buffer-pool-manager instance and the parallel
buffer-pool manager, together with theorems settling the specification claims.

Machine integers are modelled as `Nat`/`Int`; page ids are `Int`
(`INVALID_PAGE_ID = -1` as in the source), byte values of the in-page bitmaps
are `Nat` kept below 256 by the operations that touch them.  Keys and values
(`KeyType`, `ValueType`, instantiated at `int` in the source) are `Nat`; the
comparator is equality, matching `IntComparator`.
-/

namespace DBMS

/-- Pointwise function update, used to model writes into fixed C arrays. -/
def upd {α : Type} [DecidableEq α] {β : Type} (f : α → β) (i : α) (x : β) : α → β :=
  fun j => if j = i then x else f j

theorem upd_same {α : Type} [DecidableEq α] {β : Type} (f : α → β) (i : α) (x : β) :
    upd f i x i = x := by
  simp [upd]

theorem upd_ne {α : Type} [DecidableEq α] {β : Type} (f : α → β) (i j : α) (x : β)
    (h : j ≠ i) : upd f i x j = f j := by
  simp [upd, h]

/-! ## Hash-table bucket page

Model of `src/storage/page/hash_table_bucket_page.cpp`.  The page layout is two
byte bitmaps `occupied_` / `readable_` of `⌈BUCKET_ARRAY_SIZE/8⌉` bytes each and
a slot array `array_` of `BUCKET_ARRAY_SIZE` (key, value) pairs.  The fixed C
arrays are modelled as total functions from indices; all loops of the source
are bounded by `BUCKET_ARRAY_SIZE` (`bsz` below) or `OCCUPIED_ARRAY_SIZE`, so
only the in-range part of the functions is ever observable. -/

structure Bucket where
  occupied : Nat → Nat
  readable : Nat → Nat
  array : Nat → Nat × Nat

namespace Bucket

/-- Modelled from the spec: `OCCUPIED_ARRAY_SIZE` (declared in the
`hash_table_bucket_page.h` header, which is not in the snapshot) is the byte
count `⌈BUCKET_ARRAY_SIZE/8⌉` of each bitmap (spec section 3). -/
def occupiedArraySize (bsz : Nat) : Nat := (bsz - 1) / 8 + 1

/-- A zeroed bucket page, as produced by `Page::ResetMemory`. -/
def empty : Bucket := ⟨fun _ => 0, fun _ => 0, fun _ => (0, 0)⟩

/-- `IsOccupied`: byte `i / 8`, bit `1 << (i % 8)`. -/
def isOccupied (b : Bucket) (i : Nat) : Bool := (b.occupied (i / 8) >>> (i % 8)) &&& 1 == 1

/-- `IsReadable`. -/
def isReadable (b : Bucket) (i : Nat) : Bool := (b.readable (i / 8) >>> (i % 8)) &&& 1 == 1

/-- `SetOccupied`: `occupied_[i/8] |= 1 << (i%8)`. -/
def setOccupied (b : Bucket) (i : Nat) : Bucket :=
  { b with occupied := upd b.occupied (i / 8) (b.occupied (i / 8) ||| (1 <<< (i % 8))) }

/-- `SetReadable`. -/
def setReadable (b : Bucket) (i : Nat) : Bucket :=
  { b with readable := upd b.readable (i / 8) (b.readable (i / 8) ||| (1 <<< (i % 8))) }

/-- `KeyAt`: returns the stored key when readable, else the default `{}` (0). -/
def keyAt (b : Bucket) (i : Nat) : Nat := if b.isReadable i then (b.array i).1 else 0

/-- `ValueAt`. -/
def valueAt (b : Bucket) (i : Nat) : Nat := if b.isReadable i then (b.array i).2 else 0

/-- `KeyExistInArray`: linear scan over readable slots. -/
def keyExistInArray (bsz : Nat) (b : Bucket) (k : Nat) : Bool :=
  (List.range bsz).any fun i => b.isReadable i && b.keyAt i == k

/-- `KeyAndValueExistInArray`. -/
def keyAndValueExistInArray (bsz : Nat) (b : Bucket) (k v : Nat) : Bool :=
  (List.range bsz).any fun i => b.isReadable i && (b.keyAt i == k && b.valueAt i == v)

/-- `GetValue`: collects the values of all readable slots whose key matches. -/
def getValue (bsz : Nat) (b : Bucket) (k : Nat) : List Nat :=
  (List.range bsz).filterMap fun i =>
    if b.isReadable i && b.keyAt i == k then some (b.valueAt i) else none

/-- `IsFull`: every byte of the occupied bitmap equals `0xFF`. -/
def isFull (bsz : Nat) (b : Bucket) : Bool :=
  (List.range (occupiedArraySize bsz)).all fun i => b.occupied i &&& 0xFF == 0xFF

/-- `IsEmpty`: every byte of the occupied bitmap is zero. -/
def isEmpty (bsz : Nat) (b : Bucket) : Bool :=
  (List.range (occupiedArraySize bsz)).all fun i => b.occupied i == 0

/-- `NumReadable`: popcount of the readable bitmap, byte by byte. -/
def numReadable (bsz : Nat) (b : Bucket) : Nat :=
  ((List.range (occupiedArraySize bsz)).map fun i =>
    ((List.range 8).filter fun r => b.readable i &&& (1 <<< r) != 0).length).sum

/-- `Insert`: rejects when full or duplicate, else writes the pair into the
first non-occupied slot and sets both bits. -/
def insert (bsz : Nat) (b : Bucket) (k v : Nat) : Bool × Bucket :=
  if b.isFull bsz || b.keyAndValueExistInArray bsz k v then (false, b)
  else
    match (List.range bsz).find? (fun i => !b.isOccupied i) with
    | some i => (true, (({ b with array := upd b.array i (k, v) }).setOccupied i).setReadable i)
    | none => (false, b)

/-- Clearing both bits of slot `i`: `mask = ~(1 << (i%8))` on an 8-bit char,
i.e. `255 ^^^ (1 <<< (i % 8))`, ANDed into both bitmap bytes. -/
def clearBoth (b : Bucket) (i : Nat) : Bucket :=
  { b with
    readable := upd b.readable (i / 8) (b.readable (i / 8) &&& (255 ^^^ (1 <<< (i % 8)))),
    occupied := upd b.occupied (i / 8) (b.occupied (i / 8) &&& (255 ^^^ (1 <<< (i % 8)))) }

/-- `Remove`: guarded by `IsEmpty`/`KeyExistInArray`, then clears both bits of
the first occupied-and-readable slot whose KEY matches; the `value` argument is
not consulted by the scan (mirroring the source). -/
def remove (bsz : Nat) (b : Bucket) (k v : Nat) : Bool × Bucket :=
  if b.isEmpty bsz || !b.keyExistInArray bsz k then (false, b)
  else
    match (List.range bsz).find? (fun i => b.isOccupied i && (b.isReadable i && b.keyAt i == k)) with
    | some i => (true, b.clearBoth i)
    | none => (false, b)

/-- `GetAllElements`: the readable (key, value) pairs in slot order. -/
def getAllElements (bsz : Nat) (b : Bucket) : List (Nat × Nat) :=
  (List.range bsz).filterMap fun i => if b.isReadable i then some (b.array i) else none

/-- `RemoveAllElements`: the source loop runs `i` over `[0, BUCKET_ARRAY_SIZE)`
and stores `occupied_[i] = 0; readable_[i] = 0` (note: the loop bound is the
SLOT count, not the bitmap byte count; see the claim about its write bounds). -/
def removeAllElements (bsz : Nat) (b : Bucket) : Bucket :=
  (List.range bsz).foldl
    (fun b i => { b with occupied := upd b.occupied i 0, readable := upd b.readable i 0 }) b

/-- The bitmap indices written by `RemoveAllElements`: one `occupied_[i]` and
one `readable_[i]` store for every loop index `i < BUCKET_ARRAY_SIZE`. -/
def removeAllElementsWriteIndices (bsz : Nat) : List Nat := List.range bsz

end Bucket

/-! ## Hash-table directory page -/

/-- Modelled from the spec: the directory page layout and its accessors
(`src/storage/page/hash_table_directory_page.cpp` is not in the repository
snapshot; only its callers are).  Spec section 3: `global_depth : u32`,
`local_depths[2^MAX_DEPTH] : u8`, `bucket_page_ids[2^MAX_DEPTH] : page_id`
(unused entries = 0), `size() = 1 << global_depth`,
`global_depth_mask() = (1 << global_depth) - 1`; spec section 4.5: incrementing
the global depth doubles the directory.  The fixed in-page arrays are total
functions; a freshly allocated (zeroed) directory page is all zeroes. -/
structure DirectoryPage where
  global_depth : Nat
  local_depths : Nat → Nat
  bucket_page_ids : Nat → Int

namespace DirectoryPage

/-- Modelled from the spec: a zeroed directory page, as created by `NewPage`. -/
def zero : DirectoryPage := ⟨0, fun _ => 0, fun _ => 0⟩

/-- Modelled from the spec: `GetGlobalDepth`. -/
def getGlobalDepth (d : DirectoryPage) : Nat := d.global_depth

/-- Modelled from the spec: `GetGlobalDepthMask = (1 << global_depth) - 1`. -/
def getGlobalDepthMask (d : DirectoryPage) : Nat := (1 <<< d.global_depth) - 1

/-- Modelled from the spec: `Size() = 1 << global_depth`. -/
def size (d : DirectoryPage) : Nat := 1 <<< d.global_depth

/-- Modelled from the spec: `IncrGlobalDepth`. -/
def incrGlobalDepth (d : DirectoryPage) : DirectoryPage :=
  { d with global_depth := d.global_depth + 1 }

/-- Modelled from the spec: `GetBucketPageId`. -/
def getBucketPageId (d : DirectoryPage) (i : Nat) : Int := d.bucket_page_ids i

/-- Modelled from the spec: `SetBucketPageId`. -/
def setBucketPageId (d : DirectoryPage) (i : Nat) (pid : Int) : DirectoryPage :=
  { d with bucket_page_ids := upd d.bucket_page_ids i pid }

/-- Modelled from the spec: `GetLocalDepth`. -/
def getLocalDepth (d : DirectoryPage) (i : Nat) : Nat := d.local_depths i

/-- Modelled from the spec: `SetLocalDepth`. -/
def setLocalDepth (d : DirectoryPage) (i : Nat) (ld : Nat) : DirectoryPage :=
  { d with local_depths := upd d.local_depths i ld }

end DirectoryPage

/-! ## Extendible hash table

Model of `src/container/hash/extendible_hash_table.cpp`, instantiated at
`KeyType = ValueType = int` (`Nat` here) with the equality comparator.  The
hash function is a parameter `hashFn`; `Hash` truncates it to 32 bits.

The buffer pool behind the table is abstracted to a total page store
`pages : Int → Bucket` plus a fresh-id counter: the table pins every page it
fetches and never unpins, so fetched pages are never evicted and a page's
content is determined by its id; `NewPage` is modelled as always succeeding
(zeroing the fresh page), matching the claim's exclusion of growth failure.
The `lookup_page_lsb_value_` `std::unordered_map` is an insertion-ordered
association list (iteration order of the C++ map is unspecified). -/

/-- Association-list lookup with the `unordered_map::operator[]` default 0. -/
def assocGetD (l : List (Int × Nat)) (pid : Int) : Nat :=
  (((l.find? (fun p => p.1 == pid))).map (fun p => p.2)).getD 0

/-- `unordered_map::insert`: keeps the existing entry when the key is present. -/
def assocInsertIfAbsent (l : List (Int × Nat)) (pid : Int) (v : Nat) : List (Int × Nat) :=
  if (l.find? (fun p => p.1 == pid)).isSome then l else l ++ [(pid, v)]

/-- `unordered_map::operator[] =`: overwrite the entry, inserting if absent. -/
def assocSet (l : List (Int × Nat)) (pid : Int) (v : Nat) : List (Int × Nat) :=
  if (l.find? (fun p => p.1 == pid)).isSome then
    l.map (fun p => if p.1 == pid then (pid, v) else p)
  else l ++ [(pid, v)]

namespace ExtendibleHashTable

/-- State of the table and its backing page store: the directory page, the
bucket pages addressed by page id, the fresh page-id counter, the
`lookup_page_lsb_value_` map and `cur_pages_count`. -/
structure TableState where
  directory : DirectoryPage
  pages : Int → Bucket
  nextPid : Int
  lookupLsb : List (Int × Nat)
  curPagesCount : Nat

/-- `NewPage` on the abstracted buffer pool: returns a fresh page id and zeroes
that page (allocation always succeeds, cf. the namespace comment). -/
def newBucketPage (s : TableState) : Int × TableState :=
  (s.nextPid, { s with pages := upd s.pages s.nextPid Bucket.empty, nextPid := s.nextPid + 1 })

/-- `Hash`: downcast of the 64-bit hash to `uint32_t`. -/
def hashOf (hashFn : Nat → Nat) (k : Nat) : Nat := hashFn k % 2 ^ 32

/-- `KeyToDirectoryIndex`: `Hash(key) & GetGlobalDepthMask()`. -/
def keyToDirectoryIndex (hashFn : Nat → Nat) (k : Nat) (d : DirectoryPage) : Nat :=
  hashOf hashFn k &&& d.getGlobalDepthMask

/-- `MaskByLocalDepth` (anonymous-namespace helper):
`((1 << local_depth) - 1) & candidate`. -/
def maskByLocalDepth (candidate local_depth : Nat) : Nat :=
  ((1 <<< local_depth) - 1) &&& candidate

/-- The local-depth-raising loop of `CreatePageAndUpdateDirectory`: for
`i < DIRECTORY_ARRAY_SIZE`, breaking at the first zero `bucket_page_ids` entry,
set the local depth of every entry still pointing at `old_pid` to `newld`. -/
def raiseLocalDepths (d : DirectoryPage) (old_pid : Int) (newld i fuel : Nat) : DirectoryPage :=
  match fuel with
  | 0 => d
  | fuel + 1 =>
    let pid := d.getBucketPageId i
    if pid == 0 then d
    else
      raiseLocalDepths (if pid == old_pid then d.setLocalDepth i newld else d)
        old_pid newld (i + 1) fuel

/-- `GetPageToLocalDepth`: scan the directory entries below `Size()`, breaking
at the first zero page id or zero local depth, collecting `page_id ↦ depth`
(`unordered_map::insert`, first entry wins). -/
def getPageToLocalDepthAux (d : DirectoryPage) (i fuel : Nat) (acc : List (Int × Nat)) :
    List (Int × Nat) :=
  match fuel with
  | 0 => acc
  | fuel + 1 =>
    let pid := d.getBucketPageId i
    if pid == 0 then acc
    else
      let ld := d.getLocalDepth i
      if ld == 0 then acc
      else getPageToLocalDepthAux d (i + 1) fuel (assocInsertIfAbsent acc pid ld)

def getPageToLocalDepth (d : DirectoryPage) : List (Int × Nat) :=
  getPageToLocalDepthAux d 0 d.size []

/-- The bucket-pointer-update loop at the end of `CreatePageAndUpdateDirectory`:
for every directory entry `i < Size()` and every `(page_id, lsb_value)` of the
lsb lookup table (in insertion order), when `MaskByLocalDepth(i, depth(page))`
equals `lsb_value`, point entry `i` at that page and store its local depth. -/
def updateAllPointers (d : DirectoryPage) (lsb ptl : List (Int × Nat)) : DirectoryPage :=
  (List.range d.size).foldl
    (fun d i =>
      lsb.foldl
        (fun d p =>
          if maskByLocalDepth i (assocGetD ptl p.1) ^^^ p.2 == 0 then
            (d.setBucketPageId i p.1).setLocalDepth i (assocGetD ptl p.1)
          else d)
        d)
    d

/-- `CreatePageAndUpdateDirectory`; the second component is the
`old_full_page_id` out-parameter (`-1` on the first-growth path). -/
def createPageAndUpdateDirectory (dsz : Nat) (hashFn : Nat → Nat) (s : TableState) (k : Nat) :
    TableState × Int :=
  if s.directory.getGlobalDepth == 0 then
    let s := { s with directory := s.directory.incrGlobalDepth }
    let s := (List.range 2).foldl
      (fun st i =>
        let (pid, st) := newBucketPage st
        let st := { st with lookupLsb := assocInsertIfAbsent st.lookupLsb pid i }
        { st with
          directory := (st.directory.setLocalDepth i 1).setBucketPageId st.curPagesCount pid,
          curPagesCount := st.curPagesCount + 1 })
      s
    (s, -1)
  else
    let (pidNew, s) := newBucketPage s
    let oldIdx := keyToDirectoryIndex hashFn k s.directory
    let oldPid := s.directory.getBucketPageId oldIdx
    let d := s.directory.incrGlobalDepth
    let origLd := d.getLocalDepth oldIdx
    let d := raiseLocalDepths d oldPid (origLd + 1) 0 dsz
    let d := (d.setBucketPageId s.curPagesCount pidNew).setLocalDepth s.curPagesCount (origLd + 1)
    let lsb := assocSet s.lookupLsb pidNew ((1 <<< origLd) ||| assocGetD s.lookupLsb oldPid)
    let cur := s.curPagesCount + 1
    let ptl := getPageToLocalDepth d
    let d := updateAllPointers d lsb ptl
    ({ s with directory := d, lookupLsb := lsb, curPagesCount := cur }, oldPid)

/-- The reinsertion loop of `SplitInsert`: push each pair through the updated
directory; stop with `false` at the first failing bucket insert. -/
def reinsertLoop (bsz : Nat) (hashFn : Nat → Nat) (s : TableState) :
    List (Nat × Nat) → Bool × TableState
  | [] => (true, s)
  | p :: rest =>
    let ix := keyToDirectoryIndex hashFn p.1 s.directory
    let pid := s.directory.getBucketPageId ix
    let ins := Bucket.insert bsz (s.pages pid) p.1 p.2
    if ins.1 then reinsertLoop bsz hashFn { s with pages := upd s.pages pid ins.2 } rest
    else (false, s)

/-- `SplitInsert`: grow the directory, gather and clear the overfull bucket
(when there is one), append the new pair and reinsert everything. -/
def splitInsert (bsz dsz : Nat) (hashFn : Nat → Nat) (s : TableState) (k v : Nat) :
    Bool × TableState :=
  let cr := createPageAndUpdateDirectory dsz hashFn s k
  let gathered :=
    if cr.2 != -1 then
      let b := cr.1.pages cr.2
      (Bucket.getAllElements bsz b,
        { cr.1 with pages := upd cr.1.pages cr.2 (Bucket.removeAllElements bsz b) })
    else ([], cr.1)
  let pairs := gathered.1 ++ [(k, v)]
  reinsertLoop bsz hashFn gathered.2 pairs

/-- `Insert`: first growth when the global depth is zero; otherwise reject
duplicates, split when the target bucket is full, else a plain bucket insert. -/
def insert (bsz dsz : Nat) (hashFn : Nat → Nat) (s : TableState) (k v : Nat) :
    Bool × TableState :=
  if s.directory.getGlobalDepth == 0 then splitInsert bsz dsz hashFn s k v
  else
    let ix := keyToDirectoryIndex hashFn k s.directory
    let pid := s.directory.getBucketPageId ix
    let b := s.pages pid
    if Bucket.keyAndValueExistInArray bsz b k v then (false, s)
    else if Bucket.isFull bsz b then splitInsert bsz dsz hashFn s k v
    else
      let ins := Bucket.insert bsz b k v
      (ins.1, { s with pages := upd s.pages pid ins.2 })

/-- `GetValue`: fetch the directory, compute the bucket index, delegate to the
bucket page. -/
def getValue (bsz : Nat) (hashFn : Nat → Nat) (s : TableState) (k : Nat) : List Nat :=
  let ix := keyToDirectoryIndex hashFn k s.directory
  Bucket.getValue bsz (s.pages (s.directory.getBucketPageId ix)) k

/-- `Remove`: fetch directory and bucket, delegate to the bucket `Remove`
(`Merge` is an empty stub in the source). -/
def remove (bsz : Nat) (hashFn : Nat → Nat) (s : TableState) (k v : Nat) : Bool × TableState :=
  let ix := keyToDirectoryIndex hashFn k s.directory
  let pid := s.directory.getBucketPageId ix
  let rm := Bucket.remove bsz (s.pages pid) k v
  (rm.1, { s with pages := upd s.pages pid rm.2 })

end ExtendibleHashTable

/-! ## LRU replacer

Model of `src/buffer/lru_replacer.cpp`.  The source keeps a vector
`lru_cache_` of length `num_pages` and a fill counter `current_element_`; only
the first `current_element_` entries are live.  `Pin` erases from the vector
(shrinking it), so the capacity check `current_element_ == lru_cache_.size()`
in `Unpin` is against the vector's CURRENT length.  The model keeps the live
prefix as `elems` and the number of dead trailing slots as `deadLen`, so
`lru_cache_.size() = elems.length + deadLen` and
`current_element_ = elems.length`. -/

namespace LRUReplacer

structure State where
  elems : List Int
  deadLen : Nat
deriving DecidableEq

/-- Constructor: vector of length `num_pages`, no live entries. -/
def init (num_pages : Nat) : State := ⟨[], num_pages⟩

/-- `Victim`: pop the least-recently-made-evictable frame (index 0, with the
vector shifted left); `none` when empty. -/
def victim (r : State) : Option Int × State :=
  match r.elems with
  | [] => (none, r)
  | x :: rest => (some x, ⟨rest, r.deadLen + 1⟩)

/-- `Pin`: erase the first live occurrence, shrinking the vector. -/
def pin (r : State) (f : Int) : State :=
  if f ∈ r.elems then ⟨r.elems.erase f, r.deadLen⟩ else r

/-- `Unpin`: no-op when present or when `current_element_` equals the vector
length; else append at index `current_element_`. -/
def unpin (r : State) (f : Int) : State :=
  if f ∈ r.elems then r
  else if r.deadLen == 0 then r
  else ⟨r.elems ++ [f], r.deadLen - 1⟩

/-- `Size`. -/
def size (r : State) : Nat := r.elems.length

end LRUReplacer

/-! ## Buffer-pool-manager instance

Model of `src/buffer/buffer_pool_manager_instance.cpp`.  Frames are modelled
as a total function from frame index; the frame count is `pool_size`.  Page
content is an abstract `PageData`; the disk is the write log of
`DiskManager::WritePage` calls (`ReadPage` returns the most recent write, or a
zeroed page).  Frame ids are `Int` with the sentinel `-1`, as in the source. -/

/-- Abstract content of one page: a zeroed/raw page, a directory page or a
bucket page.  The buffer pool treats pages as opaque; the byte
reinterpretation done by the hash table's casts is modelled by `asDir` /
`asBucket`, which read a mismatched page as the zeroed page of that kind. -/
inductive PageData where
  | raw : PageData
  | dir : DirectoryPage → PageData
  | bucket : Bucket → PageData

def PageData.asDir : PageData → DirectoryPage
  | .dir d => d
  | _ => DirectoryPage.zero

def PageData.asBucket : PageData → Bucket
  | .bucket b => b
  | _ => Bucket.empty

/-- Modelled from the spec: a frame's metadata (`Page` from
`src/include/storage/page/page.h`, not in the snapshot): `page_id`
(INVALID = -1), non-negative `pin_count`, dirty bit, and the data buffer. -/
structure Frame where
  page_id : Int
  pin_count : Int
  is_dirty : Bool
  data : PageData

/-- Modelled from the spec: a default-constructed frame holds no page. -/
def Frame.empty : Frame := ⟨-1, 0, false, PageData.raw⟩

namespace BufferPoolManagerInstance

structure State where
  pool_size : Nat
  num_instances : Int
  instance_index : Int
  next_page_id : Int
  pages : Nat → Frame
  replacer : LRUReplacer.State
  free_list : List Int
  disk : List (Int × PageData)

/-- The constructor: counter starts at `instance_index`, all frames default,
free list `0, 1, …, pool_size - 1` (appended in order; the LIFO back is the
highest index). -/
def initState (pool_size : Nat) (num_instances instance_index : Int) : State :=
  { pool_size := pool_size
    num_instances := num_instances
    instance_index := instance_index
    next_page_id := instance_index
    pages := fun _ => Frame.empty
    replacer := LRUReplacer.init pool_size
    free_list := (List.range pool_size).map Int.ofNat
    disk := [] }

/-- `FindPageByPageId`: linear scan of the frames, `-1` when absent. -/
def findPageByPageId (s : State) (pid : Int) : Int :=
  match (List.range s.pool_size).find? (fun i => (s.pages i).page_id == pid) with
  | some i => Int.ofNat i
  | none => -1

/-- Read a frame through an `Int` frame id (the source indexes `pages_`). -/
def getFrame (s : State) (f : Int) : Frame := s.pages f.toNat

def setFrame (s : State) (f : Int) (p : Frame) : State :=
  { s with pages := upd s.pages f.toNat p }

/-- `DiskManager::WritePage`: prepend to the write log. -/
def diskWrite (s : State) (pid : Int) (d : PageData) : State :=
  { s with disk := (pid, d) :: s.disk }

/-- `DiskManager::ReadPage`: most recent write, else a zeroed page. -/
def diskRead (s : State) (pid : Int) : PageData :=
  (((s.disk.find? (fun e => e.1 == pid))).map (fun e => e.2)).getD PageData.raw

/-- `FlushPgImp`: false when the page is not resident; else write through when
dirty (the dirty bit is NOT cleared). -/
def flushPg (s : State) (pid : Int) : Bool × State :=
  let f := findPageByPageId s pid
  if f == -1 then (false, s)
  else
    let p := getFrame s f
    if p.is_dirty then (true, diskWrite s pid p.data) else (true, s)

/-- `GetVictimPageFromListOrReplacer`: free list first (LIFO back), else the
replacer's victim, else `-1`. -/
def getVictimPageFromListOrReplacer (s : State) : Int × State :=
  if s.free_list.length > 0 then
    (s.free_list.getLastD (-1), { s with free_list := s.free_list.dropLast })
  else
    match LRUReplacer.victim s.replacer with
    | (some f, rep) => (f, { s with replacer := rep })
    | (none, rep) => (-1, { s with replacer := rep })

/-- `AllocatePage`: return the counter and advance it by `num_instances`. -/
def allocatePage (s : State) : Int × State :=
  (s.next_page_id, { s with next_page_id := s.next_page_id + s.num_instances })

/-- `NewPgImp`: all-pinned short-circuit; victim from free list or replacer;
allocate an id; flush the victim's old page (via `FlushPgImp`, which looks the
old id up again); zero and install the new page pinned once.  Returns the new
page id and the frame index. -/
def newPg (s : State) : Option (Int × Int) × State :=
  let allPinned := (List.range s.pool_size).all fun i => !((s.pages i).pin_count == 0)
  if allPinned then (none, s)
  else
    let (f, s1) := getVictimPageFromListOrReplacer s
    if f == -1 then (none, s1)
    else
      let (npid, s2) := allocatePage s1
      let s3 := (flushPg s2 (getFrame s2 f).page_id).2
      let s4 := setFrame s3 f ⟨npid, 1, false, PageData.raw⟩
      (some (npid, f), s4)

/-- `FetchPgImp`: when resident, return the frame immediately (the source
neither increments the pin count nor removes the frame from the replacer);
else evict a victim (write-back when dirty), read the page from disk and
install it pinned once. -/
def fetchPg (s : State) (pid : Int) : Option Int × State :=
  let f := findPageByPageId s pid
  if f != -1 then (some f, s)
  else
    let (nf, s1) := getVictimPageFromListOrReplacer s
    if nf == -1 then (none, s1)
    else
      let p := getFrame s1 nf
      let s2 := if p.is_dirty then (flushPg s1 p.page_id).2 else s1
      let s3 := setFrame s2 nf ⟨pid, 1, false, diskRead s2 pid⟩
      (some nf, s3)

/-- `UnpinPgImp`: false when not resident or pin count non-positive; else
decrement the pin count, overwrite the dirty bit with the argument, and hand
the frame to the replacer when the pin count reaches zero. -/
def unpinPg (s : State) (pid : Int) (is_dirty : Bool) : Bool × State :=
  let f := findPageByPageId s pid
  if f == -1 then (false, s)
  else
    let p := getFrame s f
    if p.pin_count ≤ 0 then (false, s)
    else
      let p2 : Frame := { p with pin_count := p.pin_count - 1, is_dirty := is_dirty }
      let s1 := setFrame s f p2
      if p2.pin_count == 0 then (true, { s1 with replacer := LRUReplacer.unpin s1.replacer f })
      else (true, s1)

/-- `DeletePgImp`: true when not resident; false when pinned; else flush when
dirty, reset the data and page id, and append the frame to the free list (the
source does NOT remove the frame from the replacer, and does not clear the pin
count or dirty bit). -/
def deletePg (s : State) (pid : Int) : Bool × State :=
  let f := findPageByPageId s pid
  if f == -1 then (true, s)
  else
    let p := getFrame s f
    if !(p.pin_count == 0) then (false, s)
    else
      let s1 := if p.is_dirty then (flushPg s p.page_id).2 else s
      let p1 := getFrame s1 f
      let s2 := setFrame s1 f { p1 with data := PageData.raw, page_id := -1 }
      (true, { s2 with free_list := s2.free_list ++ [f] })

end BufferPoolManagerInstance

/-! ## Parallel buffer-pool manager

Model of `src/buffer/parallel_buffer_pool_manager.cpp`.  Only `NewPgImp` is
needed by the claims: it walks the instances starting at
`candidate_instance_index_`, and on success updates only the LOCAL loop
variable `candidate_index` before returning — the member cursor is never
written. -/

namespace ParallelBufferPoolManager

structure State where
  instances : List BufferPoolManagerInstance.State
  candidate_instance_index : Nat

def numInstances (s : State) : Nat := s.instances.length

/-- The constructor: `num_instances` instances of `pool_size` frames each,
instance `i` built as `BufferPoolManagerInstance(pool_size, num_instances, i)`;
the cursor starts at 0. -/
def init (num_instances pool_size : Nat) : State :=
  { instances := (List.range num_instances).map fun i =>
      BufferPoolManagerInstance.initState pool_size (Int.ofNat num_instances) (Int.ofNat i)
    candidate_instance_index := 0 }

/-- The loop body of `NewPgImp`: try instance `(cursor + i) % N`; on failure
continue with the next `i`; on success return the page — the assignment
`candidate_index = (candidate_index + 1) % num_instances_` in the source
updates a local copy and is dead, so the member cursor is left unchanged.
Returns `(page_id, frame, instance)` on success. -/
def newPgLoop (s : State) (i fuel : Nat) : Option (Int × Int × Nat) × State :=
  match fuel with
  | 0 => (none, s)
  | fuel + 1 =>
    let ci := (s.candidate_instance_index + i) % numInstances s
    let inst := s.instances.getD ci (BufferPoolManagerInstance.initState 0 1 0)
    match BufferPoolManagerInstance.newPg inst with
    | (none, inst2) => newPgLoop { s with instances := s.instances.set ci inst2 } (i + 1) fuel
    | (some (pid, fr), inst2) =>
      (some (pid, fr, ci), { s with instances := s.instances.set ci inst2 })

/-- `NewPgImp`. -/
def newPg (s : State) : Option (Int × Int × Nat) × State :=
  newPgLoop s 0 (numInstances s)

end ParallelBufferPoolManager

/-! ## Hash-table lookup over the buffer pool

`HASH_TABLE_TYPE::GetValue` as it interacts with the buffer-pool instance
(claim about pin counts): `FetchDirectoryPage` fetches `directory_page_id_`
and casts the frame's data (dereferencing the `FetchPage` result unchecked —
a failed fetch is a null dereference, modelled as `none`); then the bucket
index is computed, the bucket page fetched the same way, and the bucket
`GetValue` runs on its data.  `PrintDirectory` returns immediately and no page
is ever unpinned. -/

namespace HashTableOverPool

open BufferPoolManagerInstance

/-- `FetchDirectoryPage`:
`reinterpret_cast<HashTableDirectoryPage *>(FetchPage(directory_page_id_)->GetData())`. -/
def fetchDirectoryPage (s : State) (dirPid : Int) : Option (DirectoryPage × State) :=
  match fetchPg s dirPid with
  | (some f, s1) => some ((getFrame s1 f).data.asDir, s1)
  | (none, _) => none

/-- `GetValue` of the hash table, tracking the buffer-pool state; `none` when
a `FetchPage` returns null (which the source would dereference). -/
def getValue (bsz : Nat) (hashFn : Nat → Nat) (s : State) (dirPid : Int) (k : Nat) :
    Option (List Nat × State) :=
  match fetchDirectoryPage s dirPid with
  | none => none
  | some (d, s1) =>
    let ix := ExtendibleHashTable.keyToDirectoryIndex hashFn k d
    let bpid := d.getBucketPageId ix
    match fetchPg s1 bpid with
    | (none, _) => none
    | (some bf, s2) => some (Bucket.getValue bsz ((getFrame s2 bf).data.asBucket) k, s2)

end HashTableOverPool

/-! ## Bit-level lemmas for the bucket bitmaps -/

theorem one_shiftLeft_eq_pow (r : Nat) : 1 <<< r = 2 ^ r := by
  rw [Nat.shiftLeft_eq, one_mul]

theorem bitGet_eq_testBit (x r : Nat) : ((x >>> r) &&& 1 == 1) = x.testBit r := by
  simp [Nat.testBit]

theorem testBit_set_self (x r : Nat) : (x ||| (1 <<< r)).testBit r = true := by
  rw [one_shiftLeft_eq_pow, Nat.testBit_lor, Nat.testBit_two_pow_self, Bool.or_true]

theorem testBit_set_other (x r s : Nat) (h : s ≠ r) :
    (x ||| (1 <<< r)).testBit s = x.testBit s := by
  rw [one_shiftLeft_eq_pow, Nat.testBit_lor, Nat.testBit_two_pow_of_ne (fun hh => h hh.symm),
    Bool.or_false]

theorem testBit_clear_self (x r : Nat) (h : r < 8) :
    (x &&& (255 ^^^ (1 <<< r))).testBit r = false := by
  have h255 : (255 : Nat) = 2 ^ 8 - 1 := by norm_num
  rw [one_shiftLeft_eq_pow, Nat.testBit_land, Nat.testBit_xor, h255,
    Nat.testBit_two_pow_sub_one, Nat.testBit_two_pow_self]
  simp [h]

theorem testBit_clear_other (x r s : Nat) (hs : s < 8) (h : s ≠ r) :
    (x &&& (255 ^^^ (1 <<< r))).testBit s = x.testBit s := by
  have h255 : (255 : Nat) = 2 ^ 8 - 1 := by norm_num
  rw [one_shiftLeft_eq_pow, Nat.testBit_land, Nat.testBit_xor, h255,
    Nat.testBit_two_pow_sub_one, Nat.testBit_two_pow_of_ne (fun hh => h hh.symm)]
  simp [hs]

theorem beq_zero_eq_false_of_testBit (x r : Nat) (h : x.testBit r = true) : (x == 0) = false := by
  rcases hx : (x == 0) with _ | _
  · rfl
  · rw [beq_iff_eq] at hx; subst hx; rw [Nat.zero_testBit] at h; exact absurd h (by simp)

theorem div8_lt_occ (i bsz : Nat) (h : i < bsz) : i / 8 < Bucket.occupiedArraySize bsz := by
  unfold Bucket.occupiedArraySize
  have hle : i / 8 ≤ (bsz - 1) / 8 := Nat.div_le_div_right (by omega)
  omega

theorem eq_of_div8_of_mod8 (i j : Nat) (h1 : i / 8 = j / 8) (h2 : i % 8 = j % 8) : i = j := by
  omega

namespace Bucket

theorem isOccupied_eq_testBit (b : Bucket) (i : Nat) :
    b.isOccupied i = (b.occupied (i / 8)).testBit (i % 8) :=
  bitGet_eq_testBit _ _

theorem isReadable_eq_testBit (b : Bucket) (i : Nat) :
    b.isReadable i = (b.readable (i / 8)).testBit (i % 8) :=
  bitGet_eq_testBit _ _

theorem clearBoth_isReadable_self (b : Bucket) (i : Nat) :
    (b.clearBoth i).isReadable i = false := by
  rw [isReadable_eq_testBit]
  show ((upd b.readable (i / 8) _) (i / 8)).testBit (i % 8) = false
  rw [upd_same]
  exact testBit_clear_self _ _ (Nat.mod_lt _ (by norm_num))

theorem clearBoth_isOccupied_self (b : Bucket) (i : Nat) :
    (b.clearBoth i).isOccupied i = false := by
  rw [isOccupied_eq_testBit]
  show ((upd b.occupied (i / 8) _) (i / 8)).testBit (i % 8) = false
  rw [upd_same]
  exact testBit_clear_self _ _ (Nat.mod_lt _ (by norm_num))

theorem clearBoth_isReadable_other (b : Bucket) (i j : Nat) (h : j ≠ i) :
    (b.clearBoth i).isReadable j = b.isReadable j := by
  rw [isReadable_eq_testBit, isReadable_eq_testBit]
  show ((upd b.readable (i / 8) _) (j / 8)).testBit (j % 8) = _
  rcases Nat.decEq (j / 8) (i / 8) with hne | heq
  · rw [upd_ne _ _ _ _ hne]
  · rw [heq, upd_same]
    exact testBit_clear_other _ _ _ (Nat.mod_lt _ (by norm_num))
      (fun hm => h (eq_of_div8_of_mod8 _ _ heq hm))

theorem clearBoth_isOccupied_other (b : Bucket) (i j : Nat) (h : j ≠ i) :
    (b.clearBoth i).isOccupied j = b.isOccupied j := by
  rw [isOccupied_eq_testBit, isOccupied_eq_testBit]
  show ((upd b.occupied (i / 8) _) (j / 8)).testBit (j % 8) = _
  rcases Nat.decEq (j / 8) (i / 8) with hne | heq
  · rw [upd_ne _ _ _ _ hne]
  · rw [heq, upd_same]
    exact testBit_clear_other _ _ _ (Nat.mod_lt _ (by norm_num))
      (fun hm => h (eq_of_div8_of_mod8 _ _ heq hm))

theorem clearBoth_array (b : Bucket) (i : Nat) : (b.clearBoth i).array = b.array := rfl

theorem isEmpty_eq_false_of_isOccupied (bsz : Nat) (b : Bucket) (i : Nat) (hi : i < bsz)
    (h : b.isOccupied i = true) : b.isEmpty bsz = false := by
  rw [isOccupied_eq_testBit] at h
  rcases he : b.isEmpty bsz with _ | _
  · rfl
  · exfalso
    rw [isEmpty, List.all_eq_true] at he
    have hb := he (i / 8) (List.mem_range.mpr (div8_lt_occ i bsz hi))
    rw [beq_zero_eq_false_of_testBit _ _ h] at hb
    exact absurd hb (by simp)

theorem keyExistInArray_iff (bsz : Nat) (b : Bucket) (k : Nat) :
    b.keyExistInArray bsz k = true ↔ ∃ i, i < bsz ∧ b.isReadable i = true ∧ b.keyAt i = k := by
  rw [keyExistInArray, List.any_eq_true]
  constructor
  · rintro ⟨i, hmem, hp⟩
    rw [Bool.and_eq_true, beq_iff_eq] at hp
    exact ⟨i, List.mem_range.mp hmem, hp.1, hp.2⟩
  · rintro ⟨i, hlt, hr, hk⟩
    exact ⟨i, List.mem_range.mpr hlt, by rw [Bool.and_eq_true, beq_iff_eq]; exact ⟨hr, hk⟩⟩

end Bucket

/-! ## Claim C10 -/

/-- A bucket page with `BUCKET_ARRAY_SIZE = 8` holding the single pair (0, 1)
in slot 0 (both bitmap bits of slot 0 set). -/
def singlePairBucket : Bucket :=
  ⟨fun j => if j = 0 then 1 else 0, fun j => if j = 0 then 1 else 0,
    fun j => if j = 0 then (0, 1) else (0, 0)⟩

/-- C10: the claim says every bitmap index written by `RemoveAllElements` is
below `⌈BUCKET_ARRAY_SIZE/8⌉`.  The loop in the source in fact runs its index
over all of `[0, BUCKET_ARRAY_SIZE)`: with `BUCKET_ARRAY_SIZE = 8` the bitmaps
hold `⌈8/8⌉ = 1` byte, yet index 1 (and up to 7) is written — out of bounds of
both bitmaps.  Afterwards `IsEmpty()` does return true, since the in-bounds
byte 0 is among those zeroed. -/
theorem removeAllElements_writes_out_of_bounds :
    1 ∈ Bucket.removeAllElementsWriteIndices 8 ∧
    Bucket.occupiedArraySize 8 = 1 ∧
    ¬ (1 < Bucket.occupiedArraySize 8) ∧
    Bucket.isEmpty 8 (Bucket.removeAllElements 8 singlePairBucket) = true := by
  refine ⟨by decide, by decide, by decide, by decide⟩

/-! ## Claim C4 -/

/-- C4 counterexample: the claim says `remove(k, v, cmp)` returns true only if
some readable slot holds the PAIR (k, v), and on success clears a slot holding
exactly that pair.  On the bucket holding only (0, 1), `Remove(0, 2)` — key
present, value absent — returns true and clears the (0, 1) slot: the scan in
the source never compares the value. -/
theorem remove_ignores_value_counterexample :
    Bucket.keyAndValueExistInArray 8 singlePairBucket 0 2 = false ∧
    (Bucket.remove 8 singlePairBucket 0 2).1 = true ∧
    (Bucket.remove 8 singlePairBucket 0 2).2.isReadable 0 = false ∧
    (Bucket.remove 8 singlePairBucket 0 2).2.isOccupied 0 = false := by
  refine ⟨by decide, by decide, by decide, by decide⟩

/-- C4 (amended): on a bucket state whose readable slots are all occupied,
`remove(k, v, cmp)` returns true iff some readable slot holds KEY k (the value
argument is ignored); on success it clears both the occupied and the readable
bit of the first occupied-and-readable slot whose key equals k — even if that
slot's value differs from v — leaving every other slot's bits and the whole
slot array unchanged; it returns false leaving the bucket unchanged when no
readable slot holds key k. -/
theorem remove_spec (bsz : Nat) (b : Bucket) (k v : Nat)
    (hwf : ∀ i, i < bsz → b.isReadable i = true → b.isOccupied i = true) :
    ((Bucket.remove bsz b k v).1 = true ↔
      ∃ i, i < bsz ∧ b.isReadable i = true ∧ b.keyAt i = k) ∧
    ((Bucket.remove bsz b k v).1 = false → (Bucket.remove bsz b k v).2 = b) ∧
    (∀ i0, (List.range bsz).find?
        (fun i => b.isOccupied i && (b.isReadable i && b.keyAt i == k)) = some i0 →
      (Bucket.remove bsz b k v).1 = true ∧
      (Bucket.remove bsz b k v).2.isReadable i0 = false ∧
      (Bucket.remove bsz b k v).2.isOccupied i0 = false ∧
      (∀ j, j ≠ i0 →
        (Bucket.remove bsz b k v).2.isReadable j = b.isReadable j ∧
        (Bucket.remove bsz b k v).2.isOccupied j = b.isOccupied j) ∧
      (Bucket.remove bsz b k v).2.array = b.array) := by
  have hmain : ∀ i0, (List.range bsz).find?
      (fun i => b.isOccupied i && (b.isReadable i && b.keyAt i == k)) = some i0 →
      Bucket.remove bsz b k v = (true, b.clearBoth i0) := by
    intro i0 hfind
    have hp := List.find?_some hfind
    have hmem := List.mem_range.mp (List.mem_of_find?_eq_some hfind)
    rw [Bool.and_eq_true, Bool.and_eq_true, beq_iff_eq] at hp
    have hne : b.isEmpty bsz = false :=
      Bucket.isEmpty_eq_false_of_isOccupied bsz b i0 hmem hp.1
    have hkey : b.keyExistInArray bsz k = true :=
      (Bucket.keyExistInArray_iff bsz b k).mpr ⟨i0, hmem, hp.2.1, hp.2.2⟩
    rw [Bucket.remove, hne, hkey]
    simp [hfind]
  refine ⟨?_, ?_, ?_⟩
  · constructor
    · intro htrue
      rcases hkey : Bucket.keyExistInArray bsz b k with _ | _
      · exfalso
        have hg : (b.isEmpty bsz || !b.keyExistInArray bsz k) = true := by
          rw [hkey]; simp
        rw [Bucket.remove, if_pos hg] at htrue
        exact absurd htrue (by simp)
      · exact (Bucket.keyExistInArray_iff bsz b k).mp hkey
    · rintro ⟨i, hlt, hr, hk⟩
      have hocc := hwf i hlt hr
      have hsome : ((List.range bsz).find?
          (fun i => b.isOccupied i && (b.isReadable i && b.keyAt i == k))).isSome = true := by
        rw [List.find?_isSome]
        exact ⟨i, List.mem_range.mpr hlt, by
          rw [Bool.and_eq_true, Bool.and_eq_true, beq_iff_eq]; exact ⟨hocc, hr, hk⟩⟩
      rcases hfnd : (List.range bsz).find?
          (fun i => b.isOccupied i && (b.isReadable i && b.keyAt i == k)) with _ | i0
      · rw [hfnd] at hsome; exact absurd hsome (by simp)
      · rw [hmain i0 hfnd]
  · intro hfalse
    by_cases hg : (b.isEmpty bsz || !b.keyExistInArray bsz k) = true
    · rw [Bucket.remove, if_pos hg]
    · rcases hf : (List.range bsz).find?
          (fun i => b.isOccupied i && (b.isReadable i && b.keyAt i == k)) with _ | i0
      · rw [Bucket.remove, if_neg hg, hf]
      · rw [hmain i0 hf] at hfalse
        exact absurd hfalse (by simp)
  · intro i0 hfind
    rw [hmain i0 hfind]
    exact ⟨rfl, Bucket.clearBoth_isReadable_self b i0, Bucket.clearBoth_isOccupied_self b i0,
      fun j hj => ⟨Bucket.clearBoth_isReadable_other b i0 j hj,
        Bucket.clearBoth_isOccupied_other b i0 j hj⟩,
      Bucket.clearBoth_array b i0⟩

/-- C4 amended-claim witness: the amended theorem applied to the concrete
bucket holding (0, 1): `Remove(0, 2)` succeeds because slot 0's key is 0. -/
theorem remove_spec_witness :
    (∀ i, i < 8 → singlePairBucket.isReadable i = true → singlePairBucket.isOccupied i = true) ∧
    ((Bucket.remove 8 singlePairBucket 0 2).1 = true ↔
      ∃ i, i < 8 ∧ singlePairBucket.isReadable i = true ∧ singlePairBucket.keyAt i = 0) :=
  ⟨by decide, (remove_spec 8 singlePairBucket 0 2 (by decide)).1⟩

/-! ## Claims about the buffer-pool instance: C2, C3, C5, C8 -/

namespace BufferPoolManagerInstance

/-- A one-frame pool whose frame 0 holds page 5, pin count 0, clean, with the
frame in the replacer's evictable list — exactly the situation FetchPage(5)
hits after page 5 was loaded and unpinned. -/
def residentUnpinnedState : State :=
  { pool_size := 1, num_instances := 1, instance_index := 0, next_page_id := 6,
    pages := fun _ => ⟨5, 0, false, PageData.raw⟩,
    replacer := ⟨[0], 0⟩, free_list := [], disk := [] }

/-- C2: for a page id resident in the page table, the claim says FetchPage
increments the frame's pin count (making it ≥ 1) and removes the frame from
the replacer.  The source's resident branch (its own comment: "If P exists,
pin it and return it immediately") returns the frame with NO state change:
page 5 is resident in frame 0, `FetchPage(5)` returns frame 0, the pin count
stays 0 and the frame stays in the replacer's evictable list. -/
theorem fetchPg_resident_does_not_pin :
    findPageByPageId residentUnpinnedState 5 = 0 ∧
    fetchPg residentUnpinnedState 5 = (some 0, residentUnpinnedState) ∧
    ((fetchPg residentUnpinnedState 5).2.pages 0).pin_count = 0 ∧
    (0 : Int) ∈ (fetchPg residentUnpinnedState 5).2.replacer.elems := by
  refine ⟨by decide, rfl, by decide, by decide⟩

/-- A one-frame pool whose frame 0 holds page 5, pin count 1, DIRTY. -/
def dirtyPinnedState : State :=
  { pool_size := 1, num_instances := 1, instance_index := 0, next_page_id := 6,
    pages := fun _ => ⟨5, 1, true, PageData.raw⟩,
    replacer := ⟨[], 1⟩, free_list := [], disk := [] }

/-- C3 counterexample: the claim says UnpinPage ORs the dirty flag into the
frame's dirty bit, so `UnpinPage(p, false)` on a dirty frame leaves it dirty.
The source assigns `page.is_dirty_ = is_dirty`: on the dirty pinned frame,
`UnpinPage(5, false)` succeeds and the frame comes out CLEAN. -/
theorem unpinPg_overwrites_dirty_counterexample :
    (dirtyPinnedState.pages 0).is_dirty = true ∧
    (unpinPg dirtyPinnedState 5 false).1 = true ∧
    ((unpinPg dirtyPinnedState 5 false).2.pages 0).is_dirty = false := by
  refine ⟨rfl, by decide, by decide⟩

/-- C3 (amended): for a resident page with positive pin count,
`UnpinPage(p, d)` decrements the pin count by one, sets the frame's dirty bit
to d (overwriting — `UnpinPage(p, false)` on a dirty frame marks it clean),
hands the frame to the replacer's `Unpin` exactly when the pin count reaches
0, and changes nothing else; it returns false leaving the state unchanged when
p is not resident or the pin count is not positive. -/
theorem unpinPg_spec (s : State) (pid : Int) (d : Bool) :
    (findPageByPageId s pid = -1 → unpinPg s pid d = (false, s)) ∧
    (∀ f, findPageByPageId s pid = f → ¬ f = -1 → (getFrame s f).pin_count ≤ 0 →
      unpinPg s pid d = (false, s)) ∧
    (∀ f, findPageByPageId s pid = f → ¬ f = -1 → 0 < (getFrame s f).pin_count →
      (unpinPg s pid d).1 = true ∧
      ((unpinPg s pid d).2.pages f.toNat).pin_count = (getFrame s f).pin_count - 1 ∧
      ((unpinPg s pid d).2.pages f.toNat).is_dirty = d ∧
      ((unpinPg s pid d).2.pages f.toNat).page_id = (getFrame s f).page_id ∧
      (∀ g, g ≠ f.toNat → (unpinPg s pid d).2.pages g = s.pages g) ∧
      (unpinPg s pid d).2.replacer =
        (if (getFrame s f).pin_count - 1 = 0 then LRUReplacer.unpin s.replacer f
          else s.replacer) ∧
      (unpinPg s pid d).2.free_list = s.free_list ∧
      (unpinPg s pid d).2.disk = s.disk ∧
      (unpinPg s pid d).2.next_page_id = s.next_page_id) := by
  refine ⟨?_, ?_, ?_⟩
  · intro h
    rw [unpinPg, h]
    rfl
  · intro f hf hne hle
    rw [unpinPg, hf, if_neg (by simpa using hne), if_pos (by simpa using hle)]
  · intro f hf hne hpos
    have hle : ¬ (getFrame s f).pin_count ≤ 0 := by omega
    rw [unpinPg, hf, if_neg (by simpa using hne), if_neg (by simpa using hle)]
    by_cases hz : (getFrame s f).pin_count - 1 = 0
    · rw [if_pos (by simpa using hz), if_pos hz]
      refine ⟨rfl, ?_, ?_, ?_, ?_, rfl, rfl, rfl, rfl⟩ <;>
        simp [setFrame, upd_same, upd_ne]
      intro g hg
      rw [upd_ne _ _ _ _ hg]
    · rw [if_neg (by simpa using hz), if_neg hz]
      refine ⟨rfl, ?_, ?_, ?_, ?_, rfl, rfl, rfl, rfl⟩ <;>
        simp [setFrame, upd_same, upd_ne]
      intro g hg
      rw [upd_ne _ _ _ _ hg]

/-- C3 amended-claim witness: the amended theorem at the concrete dirty
pinned state: `UnpinPage(5, false)` returns true, the pin count drops to 0,
the dirty bit becomes false, and the frame goes to the replacer. -/
theorem unpinPg_spec_witness :
    findPageByPageId dirtyPinnedState 5 = 0 ∧
    (0 : Int) < (getFrame dirtyPinnedState 0).pin_count ∧
    (unpinPg dirtyPinnedState 5 false).1 = true ∧
    ((unpinPg dirtyPinnedState 5 false).2.pages 0).is_dirty = false :=
  ⟨by decide, by decide,
    ((unpinPg_spec dirtyPinnedState 5 false).2.2 0 (by decide) (by decide) (by decide)).1,
    (((unpinPg_spec dirtyPinnedState 5 false).2.2 0 (by decide) (by decide)
      (by decide)).2.2.1).trans rfl⟩

/-- The state reached after `j` calls to `AllocatePage`. -/
def nthAllocState (s : State) : Nat → State
  | 0 => s
  | j + 1 => (allocatePage (nthAllocState s j)).2

/-- The page id returned by the `(j+1)`-st call to `AllocatePage`. -/
def nthAllocId (s : State) (j : Nat) : Int := (allocatePage (nthAllocState s j)).1

theorem nthAllocState_next (s : State) (j : Nat) :
    (nthAllocState s j).next_page_id = s.next_page_id + j * s.num_instances ∧
    (nthAllocState s j).num_instances = s.num_instances := by
  induction j with
  | zero => simp [nthAllocState]
  | succ j ih =>
    refine ⟨?_, ih.2⟩
    show (nthAllocState s j).next_page_id + (nthAllocState s j).num_instances = _
    rw [ih.1, ih.2]
    push_cast
    ring

/-- C5: for instance `idx` of `N` instances, the page-id counter starts at
`idx` and each `AllocatePage` returns the counter and advances it by exactly
`N`; hence the `j`-th issued id is `idx + j * N`, every issued id is ≡ `idx`
mod `N`, and successive ids form a strictly increasing progression of common
difference `N`. -/
theorem allocatePage_progression (ps : Nat) (N idx : Int) (hN : 0 < N) (h0 : 0 ≤ idx)
    (hlt : idx < N) :
    (initState ps N idx).next_page_id = idx ∧
    (∀ j : Nat, nthAllocId (initState ps N idx) j = idx + (j : Int) * N) ∧
    (∀ j : Nat, nthAllocId (initState ps N idx) j % N = idx) ∧
    (∀ j : Nat, nthAllocId (initState ps N idx) (j + 1) = nthAllocId (initState ps N idx) j + N) ∧
    (∀ j : Nat, nthAllocId (initState ps N idx) j < nthAllocId (initState ps N idx) (j + 1)) := by
  have hid : ∀ j : Nat, nthAllocId (initState ps N idx) j = idx + (j : Int) * N := by
    intro j
    show (nthAllocState (initState ps N idx) j).next_page_id = _
    rw [(nthAllocState_next (initState ps N idx) j).1]
    rfl
  refine ⟨rfl, hid, ?_, ?_, ?_⟩
  · intro j
    rw [hid j, Int.add_mul_emod_self]
    exact Int.emod_eq_of_lt h0 hlt
  · intro j
    rw [hid j, hid (j + 1)]
    push_cast
    ring
  · intro j
    rw [hid j, hid (j + 1)]
    push_cast
    nlinarith [hN]

/-- C5 witness: instance 1 of 4: the 4th allocated page id is 1 + 3·4 = 13,
which is ≡ 1 (mod 4). -/
theorem allocatePage_progression_witness :
    (0 : Int) < 4 ∧ (0 : Int) ≤ 1 ∧ (1 : Int) < 4 ∧
    nthAllocId (initState 2 4 1) 3 = 13 ∧ (13 : Int) % 4 = 1 :=
  ⟨by decide, by decide, by decide,
    ((allocatePage_progression 2 4 1 (by decide) (by decide) (by decide)).2.1 3).trans (by decide),
    by decide⟩

/-- C8: when every frame of the instance is pinned, `NewPage` returns null
leaving the whole state (page-id counter included) unchanged — the all-pinned
scan short-circuits before any victim selection or `AllocatePage` call. -/
theorem newPg_all_pinned (s : State) (h : ∀ i, i < s.pool_size → 0 < (s.pages i).pin_count) :
    newPg s = (none, s) := by
  have hall : ((List.range s.pool_size).all fun i => !((s.pages i).pin_count == 0)) = true := by
    rw [List.all_eq_true]
    intro i hi
    have hp := h i (List.mem_range.mp hi)
    simp only [Bool.not_eq_true', beq_eq_false_iff_ne]
    omega
  rw [newPg, hall]
  rfl

/-- A one-frame pool whose only frame is pinned. -/
def allPinnedState : State :=
  { pool_size := 1, num_instances := 1, instance_index := 0, next_page_id := 6,
    pages := fun _ => ⟨5, 1, false, PageData.raw⟩,
    replacer := ⟨[], 1⟩, free_list := [], disk := [] }

/-- C8 witness: the theorem at the concrete fully pinned one-frame pool. -/
theorem newPg_all_pinned_witness :
    (∀ i, i < allPinnedState.pool_size → 0 < (allPinnedState.pages i).pin_count) ∧
    newPg allPinnedState = (none, allPinnedState) :=
  ⟨by decide, newPg_all_pinned allPinnedState (by decide)⟩

end BufferPoolManagerInstance

/-! ## Claim C7 -/

namespace ParallelBufferPoolManager

theorem newPgLoop_cursor (fuel : Nat) : ∀ (s : State) (i : Nat),
    (newPgLoop s i fuel).2.candidate_instance_index = s.candidate_instance_index := by
  induction fuel with
  | zero => intro s i; rfl
  | succ fuel ih =>
    intro s i
    rw [newPgLoop]
    rcases hnp : BufferPoolManagerInstance.newPg
        (s.instances.getD ((s.candidate_instance_index + i) % numInstances s)
          (BufferPoolManagerInstance.initState 0 1 0)) with ⟨r, inst2⟩
    rcases r with _ | ⟨pid, fr⟩
    · simpa using ih _ (i + 1)
    · rfl

/-- C7: the claim says that after the first successful allocation the shared
cursor field `candidate_instance_index_` is advanced modulo N, so the next
NewPage starts at a different instance.  In the source the advanced value is
assigned to the LOCAL loop copy `candidate_index` just before returning, and
the member is never written: the cursor after any `NewPage` call equals the
cursor before it.  Concretely, with 2 one-frame instances, the first call
succeeds at instance 0 yet leaves the cursor at 0, and the second call again
walks from instance 0 (which now fails) before succeeding at instance 1. -/
theorem parallel_newPg_cursor_not_advanced :
    (∀ s : State, (newPg s).2.candidate_instance_index = s.candidate_instance_index) ∧
    ((newPg (init 2 1)).1.map (fun r => r.2.2) = some 0) ∧
    (newPg (init 2 1)).2.candidate_instance_index = 0 ∧
    ((newPg (newPg (init 2 1)).2).1.map (fun r => r.2.2) = some 1) ∧
    (newPg (newPg (init 2 1)).2).2.candidate_instance_index = 0 :=
  ⟨fun s => newPgLoop_cursor (numInstances s) s 0, by decide, by decide, by decide, by decide⟩

end ParallelBufferPoolManager

/-! ## Claim C9 -/

namespace BufferPoolManagerInstance

theorem fetchPg_resident (s : State) (pid : Int) (h : ¬ findPageByPageId s pid = -1) :
    fetchPg s pid = (some (findPageByPageId s pid), s) := by
  rw [fetchPg]
  simp [h]

end BufferPoolManagerInstance

namespace HashTableOverPool

open BufferPoolManagerInstance

/-- A two-frame pool: frame 0 holds the directory page (id 0, pinned by the
table since construction) whose entries all point at bucket page 7; frame 1 is
free, and bucket page 7 is NOT resident. -/
def bucketNotResidentState : State :=
  { pool_size := 2, num_instances := 1, instance_index := 0, next_page_id := 8,
    pages := fun i =>
      if i = 0 then ⟨0, 1, false, PageData.dir ⟨1, fun _ => 1, fun _ => 7⟩⟩ else Frame.empty,
    replacer := ⟨[], 2⟩, free_list := [1], disk := [] }

/-- C9 counterexample: the claim says each page fetched during a `GetValue`
lookup is unpinned before the operation returns, leaving pin counts and the
rest of the buffer pool unchanged.  The source's `GetValue` contains no
`UnpinPage` call at all: on the pool where bucket page 7 is not resident, the
lookup loads page 7 into free frame 1 and returns with that frame still
pinned (pin count 1), a durable change of buffer-pool state. -/
theorem getValue_leaves_page_pinned_counterexample :
    (bucketNotResidentState.pages 1).pin_count = 0 ∧
    (bucketNotResidentState.pages 1).page_id = -1 ∧
    ((getValue 8 id bucketNotResidentState 0 0).map
      fun r => ((r.2.pages 1).page_id, (r.2.pages 1).pin_count)) = some (7, 1) := by
  refine ⟨rfl, rfl, by decide⟩

/-- C9 (amended): `GetValue` performs no unpin; but since `FetchPage` on a
resident page returns the frame without touching any state, a lookup whose
directory page and bucket page are both already resident leaves the whole
buffer-pool state — in particular every pin count — unchanged.  (When a page
is not resident the lookup loads it with pin count 1 and it stays pinned after
the call, as the counterexample shows.) -/
theorem getValue_resident_preserves_state (bsz : Nat) (hashFn : Nat → Nat) (s : State)
    (dirPid : Int) (k : Nat)
    (hdir : ¬ findPageByPageId s dirPid = -1)
    (hbkt : ¬ findPageByPageId s
      (((getFrame s (findPageByPageId s dirPid)).data.asDir).getBucketPageId
        (ExtendibleHashTable.keyToDirectoryIndex hashFn k
          ((getFrame s (findPageByPageId s dirPid)).data.asDir))) = -1) :
    ∃ vals, getValue bsz hashFn s dirPid k = some (vals, s) := by
  rw [getValue, fetchDirectoryPage, fetchPg_resident s dirPid hdir]
  dsimp only
  rw [fetchPg_resident s _ hbkt]
  exact ⟨_, rfl⟩

/-- A two-frame pool with the directory page (id 0) in frame 0 and bucket page
7 resident in frame 1, both pinned once. -/
def bothResidentState : State :=
  { pool_size := 2, num_instances := 1, instance_index := 0, next_page_id := 8,
    pages := fun i =>
      if i = 0 then ⟨0, 1, false, PageData.dir ⟨1, fun _ => 1, fun _ => 7⟩⟩
      else ⟨7, 1, false, PageData.bucket Bucket.empty⟩,
    replacer := ⟨[], 2⟩, free_list := [], disk := [] }

/-- C9 amended-claim witness: the theorem at the concrete pool with directory
and bucket page both resident. -/
theorem getValue_resident_preserves_state_witness :
    ¬ findPageByPageId bothResidentState 0 = -1 ∧
    ∃ vals, getValue 8 id bothResidentState 0 0 = some (vals, bothResidentState) :=
  ⟨by decide, getValue_resident_preserves_state 8 id bothResidentState 0 0
    (by decide) (by decide)⟩

end HashTableOverPool

/-! ## Claim C6 -/

namespace BufferPoolManagerInstance

/-- The claimed state invariant: a frame is in the replacer's evictable set iff
its page id is not INVALID and its pin count is 0 — together with the
bookkeeping facts that make the operations well-behaved: the replacer's live
entries are distinct valid frame ids and its vector length is the pool size,
and the free list holds distinct valid frame ids whose frames are empty. -/
def Inv (s : State) : Prop :=
  s.replacer.elems.Nodup ∧
  (∀ x ∈ s.replacer.elems, 0 ≤ x ∧ x.toNat < s.pool_size) ∧
  s.replacer.elems.length + s.replacer.deadLen = s.pool_size ∧
  (∀ i, i < s.pool_size →
    ((Int.ofNat i ∈ s.replacer.elems) ↔
      ((s.pages i).page_id ≠ -1 ∧ (s.pages i).pin_count = 0))) ∧
  s.free_list.Nodup ∧
  (∀ x ∈ s.free_list, 0 ≤ x ∧ x.toNat < s.pool_size ∧ (s.pages x.toNat).page_id = -1)

instance decidableInv (s : State) : Decidable (Inv s) := by
  unfold Inv
  infer_instance

theorem flushPg_shape (s : State) (pid : Int) :
    ∃ D, (flushPg s pid).2 = { s with disk := D } := by
  simp only [flushPg]
  by_cases h : (findPageByPageId s pid == -1) = true
  · rw [if_pos h]; exact ⟨s.disk, rfl⟩
  · rw [if_neg h]
    by_cases h2 : (getFrame s (findPageByPageId s pid)).is_dirty = true
    · rw [if_pos h2]; exact ⟨_, rfl⟩
    · rw [if_neg h2]; exact ⟨s.disk, rfl⟩

theorem inv_flushPg (s : State) (pid : Int) (h : Inv s) : Inv (flushPg s pid).2 := by
  obtain ⟨D, hD⟩ := flushPg_shape s pid
  rw [hD]
  exact h

theorem findPageByPageId_spec (s : State) (pid : Int) (h : ¬ findPageByPageId s pid = -1) :
    0 ≤ findPageByPageId s pid ∧ (findPageByPageId s pid).toNat < s.pool_size ∧
    (s.pages (findPageByPageId s pid).toNat).page_id = pid := by
  rcases hf : (List.range s.pool_size).find? (fun i => (s.pages i).page_id == pid) with _ | i
  · exact absurd (by rw [findPageByPageId, hf]) h
  · have hp0 := List.find?_some hf
    simp only [beq_iff_eq] at hp0
    have hm := List.mem_range.mp (List.mem_of_find?_eq_some hf)
    rw [findPageByPageId, hf]
    exact ⟨Int.ofNat_nonneg i, by simpa using hm, by simpa using hp0⟩

/-- Installing a pinned frame into the frame slot popped from the back of the
free list preserves the invariant (used for the victim-from-free-list branch
of `NewPgImp` and `FetchPgImp`; `n` and `D` absorb the page-id-counter and
disk-log changes those operations make). -/
theorem inv_install_free (s : State) (fr : Frame) (n : Int) (D : List (Int × PageData))
    (ys : List Int) (y : Int) (hfl : s.free_list = ys ++ [y]) (hpin : ¬ fr.pin_count = 0)
    (h : Inv s) :
    Inv { s with pages := upd s.pages y.toNat fr, free_list := ys,
                 next_page_id := n, disk := D } := by
  obtain ⟨h1, h2, h3, h4, h5, h6⟩ := h
  rw [hfl] at h5
  obtain ⟨h5ys, h5y, h5disj⟩ := List.nodup_append.mp h5
  have hymem : y ∈ s.free_list := by rw [hfl]; exact List.mem_append_right _ (by simp)
  obtain ⟨hy0, hylt, hypid⟩ := h6 y hymem
  have hyy : Int.ofNat y.toNat = y := Int.toNat_of_nonneg hy0
  refine ⟨h1, h2, h3, ?_, h5ys, ?_⟩
  · intro i hi
    dsimp only at hi ⊢
    by_cases hif : i = y.toNat
    · subst hif
      constructor
      · intro hmem
        exact absurd hypid (((h4 _ hi).mp hmem).1)
      · intro hrhs
        rw [upd_same] at hrhs
        exact absurd hrhs.2 hpin
    · rw [show upd s.pages y.toNat fr i = s.pages i from upd_ne _ _ _ _ hif]
      exact h4 i hi
  · intro x hx
    dsimp only at hx ⊢
    have hxin : x ∈ s.free_list := by rw [hfl]; exact List.mem_append_left _ hx
    obtain ⟨hx0, hxlt, hxpid⟩ := h6 x hxin
    have hxny : ¬ x.toNat = y.toNat := by
      intro he
      have hxy : x = y := by omega
      exact h5disj (hxy ▸ hx) (by simp)
    rw [show upd s.pages y.toNat fr x.toNat = s.pages x.toNat from upd_ne _ _ _ _ hxny]
    exact ⟨hx0, hxlt, hxpid⟩

/-- Installing a pinned frame into the frame slot popped from the replacer
(free list empty) preserves the invariant. -/
theorem inv_install_victim (s : State) (fr : Frame) (n : Int) (D : List (Int × PageData))
    (f : Int) (rest : List Int) (hel : s.replacer.elems = f :: rest) (hfl : s.free_list = [])
    (hpin : ¬ fr.pin_count = 0) (h : Inv s) :
    Inv { s with pages := upd s.pages f.toNat fr,
                 replacer := ⟨rest, s.replacer.deadLen + 1⟩,
                 next_page_id := n, disk := D } := by
  obtain ⟨h1, h2, h3, h4, h5, h6⟩ := h
  have hfmem : f ∈ s.replacer.elems := by rw [hel]; exact List.mem_cons_self f rest
  obtain ⟨hf0, hflt⟩ := h2 f hfmem
  have hff : Int.ofNat f.toNat = f := Int.toNat_of_nonneg hf0
  rw [hel] at h1
  have hfnr : ¬ f ∈ rest := (List.nodup_cons.mp h1).1
  refine ⟨(List.nodup_cons.mp h1).2, ?_, ?_, ?_, h5, ?_⟩
  · intro x hx
    exact h2 x (by rw [hel]; exact List.mem_cons_of_mem f hx)
  · rw [hel] at h3
    simp only [List.length_cons] at h3
    simp only [List.length_cons] at *
    omega
  · intro i hi
    dsimp only at hi ⊢
    by_cases hif : i = f.toNat
    · subst hif
      constructor
      · intro hmem
        rw [hff] at hmem
        exact absurd hmem hfnr
      · intro hrhs
        rw [upd_same] at hrhs
        exact absurd hrhs.2 hpin
    · rw [show upd s.pages f.toNat fr i = s.pages i from upd_ne _ _ _ _ hif]
      have hiff := h4 i hi
      rw [hel] at hiff
      have hne2 : ¬ Int.ofNat i = f := by
        intro he
        apply hif
        rw [← he]
        rfl
      constructor
      · intro hmem
        exact hiff.mp (List.mem_cons_of_mem f hmem)
      · intro hrhs
        rcases List.mem_cons.mp (hiff.mpr hrhs) with he | hm
        · exact absurd he hne2
        · exact hm
  · intro x hx
    dsimp only at hx
    rw [hfl] at hx
    exact absurd hx (List.not_mem_nil x)

theorem getVictim_free (s : State) (ys : List Int) (y : Int) (hfl : s.free_list = ys ++ [y]) :
    getVictimPageFromListOrReplacer s = (y, { s with free_list := ys }) := by
  rw [getVictimPageFromListOrReplacer, if_pos (by rw [hfl]; simp)]
  rw [hfl]
  simp [List.getLastD_concat, List.dropLast_concat]

theorem getVictim_replacer (s : State) (f : Int) (rest : List Int) (hfl : s.free_list = [])
    (hel : s.replacer.elems = f :: rest) :
    getVictimPageFromListOrReplacer s =
      (f, { s with replacer := ⟨rest, s.replacer.deadLen + 1⟩ }) := by
  rw [getVictimPageFromListOrReplacer, if_neg (by rw [hfl]; simp)]
  simp [LRUReplacer.victim, hel]

theorem getVictim_none (s : State) (hfl : s.free_list = []) (hel : s.replacer.elems = []) :
    getVictimPageFromListOrReplacer s = (-1, s) := by
  rw [getVictimPageFromListOrReplacer, if_neg (by rw [hfl]; simp)]
  simp [LRUReplacer.victim, hel]

theorem flushIf_shape (s : State) (c : Bool) (pid : Int) :
    ∃ D, (if c = true then (flushPg s pid).2 else s) = { s with disk := D } := by
  cases c
  · exact ⟨s.disk, rfl⟩
  · simpa using flushPg_shape s pid

theorem inv_newPg (s : State) (h : Inv s) : Inv (newPg s).2 := by
  by_cases hall : ((List.range s.pool_size).all fun i => !((s.pages i).pin_count == 0)) = true
  · have hn : newPg s = (none, s) := by
      simp only [newPg]
      rw [if_pos hall]
    rw [hn]
    exact h
  · rcases List.eq_nil_or_concat s.free_list with hfl | ⟨ys, y, hfl⟩
    · rcases hel : s.replacer.elems with _ | ⟨f, rest⟩
      · have hn : newPg s = (none, s) := by
          simp only [newPg, getVictim_none s hfl hel]
          rw [if_neg hall]
          rfl
        rw [hn]
        exact h
      · have hf0 : 0 ≤ f := (h.2.1 f (by rw [hel]; exact List.mem_cons_self f rest)).1
        have hfne : ¬ (f == -1) = true := by simp; omega
        simp only [newPg, getVictim_replacer s f rest hfl hel, allocatePage]
        rw [if_neg hall, if_neg hfne]
        dsimp only
        obtain ⟨D, hD⟩ := flushPg_shape { s with replacer := ⟨rest, s.replacer.deadLen + 1⟩, next_page_id := s.next_page_id + s.num_instances } ((getFrame { s with replacer := ⟨rest, s.replacer.deadLen + 1⟩, next_page_id := s.next_page_id + s.num_instances } f).page_id)
        rw [hD]
        simp only [setFrame]
        refine inv_install_victim s _ _ _ f rest hel hfl ?_ h
        simp
    · rw [List.concat_eq_append] at hfl
      have hy0 : 0 ≤ y := (h.2.2.2.2.2 y (by rw [hfl]; simp)).1
      have hyne : ¬ (y == -1) = true := by simp; omega
      simp only [newPg, getVictim_free s ys y hfl, allocatePage]
      rw [if_neg hall, if_neg hyne]
      dsimp only
      obtain ⟨D, hD⟩ := flushPg_shape { s with free_list := ys, next_page_id := s.next_page_id + s.num_instances } ((getFrame { s with free_list := ys, next_page_id := s.next_page_id + s.num_instances } y).page_id)
      rw [hD]
      simp only [setFrame]
      refine inv_install_free s _ _ _ ys y hfl ?_ h
      simp

theorem inv_fetchPg (s : State) (pid : Int) (h : Inv s) : Inv (fetchPg s pid).2 := by
  by_cases hres : findPageByPageId s pid = -1
  · rcases List.eq_nil_or_concat s.free_list with hfl | ⟨ys, y, hfl⟩
    · rcases hel : s.replacer.elems with _ | ⟨f, rest⟩
      · have hn : fetchPg s pid = (none, s) := by
          simp only [fetchPg, hres, getVictim_none s hfl hel]
          rfl
        rw [hn]
        exact h
      · have hf0 : 0 ≤ f := (h.2.1 f (by rw [hel]; exact List.mem_cons_self f rest)).1
        have hfne : ¬ (f == -1) = true := by simp; omega
        simp only [fetchPg, hres, getVictim_replacer s f rest hfl hel]
        rw [if_neg (by decide), if_neg hfne]
        dsimp only
        obtain ⟨D, hD⟩ := flushIf_shape { s with replacer := ⟨rest, s.replacer.deadLen + 1⟩ } ((getFrame { s with replacer := ⟨rest, s.replacer.deadLen + 1⟩ } f).is_dirty) ((getFrame { s with replacer := ⟨rest, s.replacer.deadLen + 1⟩ } f).page_id)
        rw [hD]
        simp only [setFrame]
        refine inv_install_victim s _ _ _ f rest hel hfl ?_ h
        simp
    · rw [List.concat_eq_append] at hfl
      have hy0 : 0 ≤ y := (h.2.2.2.2.2 y (by rw [hfl]; simp)).1
      have hyne : ¬ (y == -1) = true := by simp; omega
      simp only [fetchPg, hres, getVictim_free s ys y hfl]
      rw [if_neg (by decide), if_neg hyne]
      dsimp only
      obtain ⟨D, hD⟩ := flushIf_shape { s with free_list := ys } ((getFrame { s with free_list := ys } y).is_dirty) ((getFrame { s with free_list := ys } y).page_id)
      rw [hD]
      simp only [setFrame]
      refine inv_install_free s _ _ _ ys y hfl ?_ h
      simp
  · rw [fetchPg_resident s pid hres]
    exact h

theorem unpinPg_not_resident (s : State) (pid : Int) (d : Bool)
    (h : findPageByPageId s pid = -1) : unpinPg s pid d = (false, s) := by
  simp only [unpinPg, h]
  rw [if_pos (by decide)]

theorem unpinPg_nonpos (s : State) (pid : Int) (d : Bool) (f : Int)
    (hf : findPageByPageId s pid = f) (hne : ¬ f = -1)
    (hle : (getFrame s f).pin_count ≤ 0) : unpinPg s pid d = (false, s) := by
  simp only [unpinPg, hf]
  rw [if_neg (by simpa using hne), if_pos hle]

theorem unpinPg_pos_eq (s : State) (pid : Int) (d : Bool) (f : Int)
    (hf : findPageByPageId s pid = f) (hne : ¬ f = -1)
    (hpos : 0 < (getFrame s f).pin_count) :
    unpinPg s pid d = (true,
      if (getFrame s f).pin_count - 1 = 0 then
        { setFrame s f
            { getFrame s f with pin_count := (getFrame s f).pin_count - 1, is_dirty := d } with
          replacer := LRUReplacer.unpin s.replacer f }
      else setFrame s f
        { getFrame s f with pin_count := (getFrame s f).pin_count - 1, is_dirty := d }) := by
  simp only [unpinPg, hf]
  rw [if_neg (by simpa using hne), if_neg (by omega)]
  by_cases hz : (getFrame s f).pin_count - 1 = 0
  · rw [if_pos (by simpa using hz), if_pos hz]
    rfl
  · rw [if_neg (by simpa using hz), if_neg hz]

theorem lru_unpin_eq (r : LRUReplacer.State) (f : Int) (hnot : ¬ f ∈ r.elems)
    (hd : ¬ r.deadLen = 0) :
    LRUReplacer.unpin r f = ⟨r.elems ++ [f], r.deadLen - 1⟩ := by
  rw [LRUReplacer.unpin, if_neg hnot, if_neg (by simpa using hd)]

theorem elems_length_lt (s : State) (h : Inv s) (f : Int) (hf0 : 0 ≤ f)
    (hflt : f.toNat < s.pool_size) (hnot : ¬ f ∈ s.replacer.elems) :
    s.replacer.elems.length < s.pool_size := by
  have hsub : s.replacer.elems ⊆ ((List.range s.pool_size).map Int.ofNat).erase f := by
    intro x hx
    obtain ⟨hx0, hxlt⟩ := h.2.1 x hx
    have hxL : x ∈ (List.range s.pool_size).map Int.ofNat :=
      List.mem_map.mpr ⟨x.toNat, List.mem_range.mpr hxlt, Int.toNat_of_nonneg hx0⟩
    exact (List.mem_erase_of_ne (fun he => hnot (by rw [← he]; exact hx))).mpr hxL
  have hfL : f ∈ (List.range s.pool_size).map Int.ofNat :=
    List.mem_map.mpr ⟨f.toNat, List.mem_range.mpr hflt, Int.toNat_of_nonneg hf0⟩
  have hlen := (List.subperm_of_subset h.1 hsub).length_le
  rw [List.length_erase_of_mem hfL, List.length_map, List.length_range] at hlen
  omega

theorem inv_unpinPg (s : State) (pid : Int) (d : Bool) (hpid : ¬ pid = -1) (h : Inv s) :
    Inv (unpinPg s pid d).2 := by
  by_cases hres : findPageByPageId s pid = -1
  · rw [unpinPg_not_resident s pid d hres]
    exact h
  · by_cases hpos : 0 < (getFrame s (findPageByPageId s pid)).pin_count
    · obtain ⟨hf0, hflt, hfpid⟩ := findPageByPageId_spec s pid hres
      have hff : Int.ofNat (findPageByPageId s pid).toNat = findPageByPageId s pid :=
        Int.toNat_of_nonneg hf0
      obtain ⟨h1, h2, h3, h4, h5, h6⟩ := h
      have hpin2 : 0 < (s.pages (findPageByPageId s pid).toNat).pin_count := hpos
      have hnotin : ¬ findPageByPageId s pid ∈ s.replacer.elems := by
        intro hmem
        rw [← hff] at hmem
        have := (h4 _ hflt).mp hmem
        omega
      rw [unpinPg_pos_eq s pid d _ rfl hres hpos]
      dsimp only
      by_cases hz : (getFrame s (findPageByPageId s pid)).pin_count - 1 = 0
      · rw [if_pos hz]
        have hdead : ¬ s.replacer.deadLen = 0 := by
          have := elems_length_lt s ⟨h1, h2, h3, h4, h5, h6⟩ _ hf0 hflt hnotin
          omega
        rw [lru_unpin_eq s.replacer _ hnotin hdead]
        simp only [setFrame]
        refine ⟨?_, ?_, ?_, ?_, h5, ?_⟩
        · dsimp only
          rw [List.nodup_append]
          refine ⟨h1, by simp, ?_⟩
          intro a ha hb
          rw [List.mem_singleton] at hb
          subst hb
          exact hnotin ha
        · intro x hx
          dsimp only at hx ⊢
          rcases List.mem_append.mp hx with hx1 | hx2
          · exact h2 x hx1
          · rw [List.mem_singleton] at hx2
            subst hx2
            exact ⟨hf0, hflt⟩
        · dsimp only
          rw [List.length_append]
          simp only [List.length_singleton]
          omega
        · intro i hi
          dsimp only at hi ⊢
          by_cases hif : i = (findPageByPageId s pid).toNat
          · subst hif
            rw [upd_same, hff]
            constructor
            · intro _
              refine ⟨?_, ?_⟩
              · show (getFrame s (findPageByPageId s pid)).page_id ≠ -1
                have hp2 : (getFrame s (findPageByPageId s pid)).page_id = pid := hfpid
                rw [hp2]
                exact hpid
              · show (getFrame s (findPageByPageId s pid)).pin_count - 1 = 0
                exact hz
            · intro _
              exact List.mem_append_right _ (by simp)
          · rw [show upd s.pages (findPageByPageId s pid).toNat
                { getFrame s (findPageByPageId s pid) with
                  pin_count := (getFrame s (findPageByPageId s pid)).pin_count - 1,
                  is_dirty := d } i = s.pages i from upd_ne _ _ _ _ hif]
            have hne2 : ¬ Int.ofNat i = findPageByPageId s pid := by
              intro he
              apply hif
              rw [← he]
              rfl
            constructor
            · intro hmem
              rcases List.mem_append.mp hmem with hm | hm
              · exact (h4 i hi).mp hm
              · rw [List.mem_singleton] at hm
                exact absurd hm hne2
            · intro hrhs
              exact List.mem_append_left _ ((h4 i hi).mpr hrhs)
        · intro x hx
          dsimp only at hx ⊢
          obtain ⟨hx0, hxlt, hxpid⟩ := h6 x hx
          have hxne : ¬ x.toNat = (findPageByPageId s pid).toNat := by
            intro he
            rw [he, hfpid] at hxpid
            exact hpid hxpid
          rw [show upd s.pages (findPageByPageId s pid).toNat
              { getFrame s (findPageByPageId s pid) with
                pin_count := (getFrame s (findPageByPageId s pid)).pin_count - 1,
                is_dirty := d } x.toNat = s.pages x.toNat from upd_ne _ _ _ _ hxne]
          exact ⟨hx0, hxlt, hxpid⟩
      · rw [if_neg hz]
        simp only [setFrame]
        refine ⟨h1, h2, h3, ?_, h5, ?_⟩
        · intro i hi
          dsimp only at hi ⊢
          by_cases hif : i = (findPageByPageId s pid).toNat
          · subst hif
            rw [upd_same, hff]
            constructor
            · intro hmem
              exact absurd hmem hnotin
            · intro hrhs
              have hz2 : (getFrame s (findPageByPageId s pid)).pin_count - 1 = 0 := hrhs.2
              exact absurd hz2 hz
          · rw [show upd s.pages (findPageByPageId s pid).toNat
                { getFrame s (findPageByPageId s pid) with
                  pin_count := (getFrame s (findPageByPageId s pid)).pin_count - 1,
                  is_dirty := d } i = s.pages i from upd_ne _ _ _ _ hif]
            exact h4 i hi
        · intro x hx
          dsimp only at hx ⊢
          obtain ⟨hx0, hxlt, hxpid⟩ := h6 x hx
          have hxne : ¬ x.toNat = (findPageByPageId s pid).toNat := by
            intro he
            rw [he, hfpid] at hxpid
            exact hpid hxpid
          rw [show upd s.pages (findPageByPageId s pid).toNat
              { getFrame s (findPageByPageId s pid) with
                pin_count := (getFrame s (findPageByPageId s pid)).pin_count - 1,
                is_dirty := d } x.toNat = s.pages x.toNat from upd_ne _ _ _ _ hxne]
          exact ⟨hx0, hxlt, hxpid⟩
    · rw [unpinPg_nonpos s pid d _ rfl hres (by omega)]
      exact h

/-- One-frame pool after `NewPage` (page 0 pinned in frame 0). -/
def deleteTrace1 : State := (newPg (initState 1 1 0)).2

/-- … after `UnpinPage(0, false)` (frame 0 evictable, in the replacer). -/
def deleteTrace2 : State := (unpinPg deleteTrace1 0 false).2

/-- … after `DeletePage(0)`. -/
def deleteTrace3 : State := (deletePg deleteTrace2 0).2

/-- C6 counterexample: the claim says the replacer-membership iff holds in
every reachable state, DeletePage included.  On a one-frame pool, the trace
NewPage(→ page 0); UnpinPage(0, false); DeletePage(0) — all three succeeding —
ends with frame 0 both on the free list with `page_id = INVALID` AND still in
the replacer's evictable list (the source's `DeletePgImp` never removes the
frame from the replacer), so the invariant `frame ∈ replacer ⇔ (page_id ≠
INVALID ∧ pin_count = 0)` is violated in a reachable state. -/
theorem deletePg_leaves_replacer_counterexample :
    Inv (initState 1 1 0) ∧
    (newPg (initState 1 1 0)).1 = some (0, 0) ∧
    (unpinPg deleteTrace1 0 false).1 = true ∧
    (deletePg deleteTrace2 0).1 = true ∧
    (0 : Int) ∈ deleteTrace3.replacer.elems ∧
    (deleteTrace3.pages 0).page_id = -1 ∧
    (0 : Int) ∈ deleteTrace3.free_list ∧
    ¬ Inv deleteTrace3 := by
  refine ⟨by decide, by decide, by decide, by decide, by decide, by decide, by decide, by decide⟩

/-- C6 (amended): the membership invariant `frame ∈ replacer ⇔ (page_id ≠
INVALID ∧ pin_count = 0)` (with its bookkeeping: distinct in-range replacer
entries filling a vector of pool size, distinct in-range free-list entries
holding INVALID page ids) is preserved by NewPage, FetchPage, UnpinPage (for a
valid page-id argument) and FlushPage — but NOT by DeletePage, which returns
the frame to the free list and sets `page_id = INVALID` while leaving the
frame in the replacer (see the counterexample). -/
theorem replacer_invariant_ops (s : State) (pid : Int) (d : Bool) (hpid : ¬ pid = -1)
    (h : Inv s) :
    Inv (newPg s).2 ∧ Inv (fetchPg s pid).2 ∧ Inv (unpinPg s pid d).2 ∧ Inv (flushPg s pid).2 :=
  ⟨inv_newPg s h, inv_fetchPg s pid h, inv_unpinPg s pid d hpid h, inv_flushPg s pid h⟩

/-- C6 amended-claim witness: the theorem at a concrete two-frame pool in its
initial state, with page id 5. -/
theorem replacer_invariant_ops_witness :
    ¬ (5 : Int) = -1 ∧ Inv (initState 2 1 0) ∧ Inv (newPg (initState 2 1 0)).2 :=
  ⟨by decide, by decide,
    (replacer_invariant_ops (initState 2 1 0) 5 false (by decide) (by decide)).1⟩

end BufferPoolManagerInstance

/-! ## Claim C1 -/

theorem bucket_insert_getValue (bsz : Nat) (b : Bucket) (k v : Nat)
    (h : (Bucket.insert bsz b k v).1 = true) :
    v ∈ Bucket.getValue bsz (Bucket.insert bsz b k v).2 k := by
  rw [Bucket.insert] at h ⊢
  by_cases hg : (b.isFull bsz || b.keyAndValueExistInArray bsz k v) = true
  · rw [if_pos hg] at h
    exact absurd h (by simp)
  · rw [if_neg hg] at h ⊢
    rcases hf : (List.range bsz).find? (fun i => !b.isOccupied i) with _ | i
    · rw [hf] at h
      exact absurd h (by simp)
    · dsimp only at h ⊢
      have hi : i < bsz := List.mem_range.mp (List.mem_of_find?_eq_some hf)
      have hread :
          ((({ b with array := upd b.array i (k, v) }).setOccupied i).setReadable i).isReadable i
            = true := by
        rw [Bucket.isReadable_eq_testBit]
        show ((upd b.readable (i / 8) (b.readable (i / 8) ||| (1 <<< (i % 8)))) (i / 8)).testBit
          (i % 8) = true
        rw [upd_same]
        exact testBit_set_self _ _
      have harr :
          ((({ b with array := upd b.array i (k, v) }).setOccupied i).setReadable i).array i
            = (k, v) := by
        show upd b.array i (k, v) i = (k, v)
        exact upd_same _ _ _
      have hkey :
          ((({ b with array := upd b.array i (k, v) }).setOccupied i).setReadable i).keyAt i
            = k := by
        rw [Bucket.keyAt, if_pos hread, harr]
      have hval :
          ((({ b with array := upd b.array i (k, v) }).setOccupied i).setReadable i).valueAt i
            = v := by
        rw [Bucket.valueAt, if_pos hread, harr]
      rw [Bucket.getValue, List.mem_filterMap]
      refine ⟨i, List.mem_range.mpr hi, ?_⟩
      rw [hread, hkey]
      simp [hval]

namespace ExtendibleHashTable

theorem reinsertLoop_getValue (bsz : Nat) (hashFn : Nat → Nat) (k v : Nat) :
    ∀ (pairs : List (Nat × Nat)) (s : TableState),
      (reinsertLoop bsz hashFn s (pairs ++ [(k, v)])).1 = true →
      v ∈ getValue bsz hashFn (reinsertLoop bsz hashFn s (pairs ++ [(k, v)])).2 k := by
  intro pairs
  induction pairs with
  | nil =>
    intro s h
    rw [List.nil_append] at h ⊢
    simp only [reinsertLoop] at h ⊢
    by_cases hres : (Bucket.insert bsz
        (s.pages (s.directory.getBucketPageId (keyToDirectoryIndex hashFn k s.directory)))
        k v).1 = true
    · rw [if_pos hres] at h ⊢
      simp only [reinsertLoop]
      rw [getValue]
      dsimp only
      rw [upd_same]
      exact bucket_insert_getValue bsz _ k v hres
    · rw [if_neg hres] at h
      exact absurd h (by simp)
  | cons q qs ih =>
    intro s h
    rw [List.cons_append] at h ⊢
    simp only [reinsertLoop] at h ⊢
    by_cases hres : (Bucket.insert bsz
        (s.pages (s.directory.getBucketPageId (keyToDirectoryIndex hashFn q.1 s.directory)))
        q.1 q.2).1 = true
    · rw [if_pos hres] at h ⊢
      exact ih _ h
    · rw [if_neg hres] at h
      exact absurd h (by simp)

theorem splitInsert_getValue (bsz dsz : Nat) (hashFn : Nat → Nat) (s : TableState) (k v : Nat)
    (h : (splitInsert bsz dsz hashFn s k v).1 = true) :
    v ∈ getValue bsz hashFn (splitInsert bsz dsz hashFn s k v).2 k := by
  simp only [splitInsert] at h ⊢
  exact reinsertLoop_getValue bsz hashFn k v _ _ h

end ExtendibleHashTable

/-- C1 (amended): if `Insert(k, v)` on the extendible hash table returns true,
then a `GetValue(k)` performed immediately on the resulting table state — with
no intervening table operation other than lookups, which do not modify the
table — returns a list containing `v`; proved for every table state, bucket
capacity, directory capacity and hash function.  On the true-paths the final
action is a successful bucket insert of (k, v) into the bucket the directory
maps the key to, and `GetValue` resolves the key through the same directory,
so it reads that bucket.  (The original claim, which also allows intervening
`Insert` calls, is false: see the counterexample, where a later Insert's
split stomps the directory entry of the bucket holding (k, v).) -/
theorem insert_then_getValue (bsz dsz : Nat) (hashFn : Nat → Nat)
    (s : ExtendibleHashTable.TableState) (k v : Nat)
    (h : (ExtendibleHashTable.insert bsz dsz hashFn s k v).1 = true) :
    v ∈ ExtendibleHashTable.getValue bsz hashFn
      (ExtendibleHashTable.insert bsz dsz hashFn s k v).2 k := by
  simp only [ExtendibleHashTable.insert] at h ⊢
  by_cases hgd : (s.directory.getGlobalDepth == 0) = true
  · rw [if_pos hgd] at h ⊢
    exact ExtendibleHashTable.splitInsert_getValue bsz dsz hashFn s k v h
  · rw [if_neg hgd] at h ⊢
    by_cases hdup : Bucket.keyAndValueExistInArray bsz
        (s.pages (s.directory.getBucketPageId
          (ExtendibleHashTable.keyToDirectoryIndex hashFn k s.directory))) k v = true
    · rw [if_pos hdup] at h
      exact absurd h (by simp)
    · rw [if_neg hdup] at h ⊢
      by_cases hfull : Bucket.isFull bsz
          (s.pages (s.directory.getBucketPageId
            (ExtendibleHashTable.keyToDirectoryIndex hashFn k s.directory))) = true
      · rw [if_pos hfull] at h ⊢
        exact ExtendibleHashTable.splitInsert_getValue bsz dsz hashFn s k v h
      · rw [if_neg hfull] at h ⊢
        rw [ExtendibleHashTable.getValue]
        dsimp only
        rw [upd_same]
        exact bucket_insert_getValue bsz _ k v h

/-- The table state right after construction: the zeroed directory page
(page id 0, allocated first by the constructor), an empty backing store, and
bucket page ids minted from 1. -/
def initialTable : ExtendibleHashTable.TableState :=
  ⟨DirectoryPage.zero, fun _ => Bucket.empty, 1, [], 0⟩

/-- C1 witness: on the fresh table with `BUCKET_ARRAY_SIZE = 8`,
`DIRECTORY_ARRAY_SIZE = 512` and the identity hash, `Insert(3, 30)` returns
true (via the first-growth `SplitInsert`) and `GetValue(3)` then contains 30. -/
theorem insert_then_getValue_witness :
    (ExtendibleHashTable.insert 8 512 id initialTable 3 30).1 = true ∧
    30 ∈ ExtendibleHashTable.getValue 8 id
      (ExtendibleHashTable.insert 8 512 id initialTable 3 30).2 3 :=
  ⟨by decide, insert_then_getValue 8 512 id initialTable 3 30 (by decide)⟩

/-- Hash function of the C1 counterexample run: key 7 hashes to 3, every
other key hashes to 1 (`BUCKET_ARRAY_SIZE = 8`, so eight colliding keys fill
one bucket). -/
def cexHash : Nat → Nat := fun k => if k = 7 then 3 else 1

/-- Insert the pairs (k, k), for k in the list from left to right, into the
fresh table under `cexHash`. -/
def cexRun (ks : List Nat) : ExtendibleHashTable.TableState :=
  ks.foldl (fun s k => (ExtendibleHashTable.insert 8 512 cexHash s k k).2) initialTable

/-- C1 counterexample: the claim allows any non-`Remove` operations between
the Insert and the GetValue, and a later INSERT can destroy the pair.  On the
fresh table insert (k, k) for k = 0…8 — all nine return true; in particular
`Insert(7, 7)` returns true and `GetValue(7)` yields [7] after the eighth
insert triggers a split that moves (7, 7) into its own bucket (directory
entry 3, a bucket with local depth 2 reachable from that entry only).  The
next call, `Insert(9, 9)` — an Insert, not a Remove — splits the full bucket
of the hash-1 keys: `CreatePageAndUpdateDirectory` stores the new bucket's
page id at directory index `cur_pages_count` = 3, overwriting the sole entry
pointing at (7, 7)'s bucket, so `GetPageToLocalDepth` (which scans the
directory) never sees that bucket and the pointer-update loop finds no match
for entry 3 (the logged `match != 1` case), leaving it pointing at the new
bucket.  `Insert(9, 9)` returns false, no `Remove` ever ran, and `GetValue(7)`
now returns the empty list: the claim as stated is false. -/
theorem insert_lost_after_split_counterexample :
    (ExtendibleHashTable.insert 8 512 cexHash (cexRun [0, 1, 2, 3, 4, 5, 6]) 7 7).1 = true ∧
    (ExtendibleHashTable.insert 8 512 cexHash (cexRun [0, 1, 2, 3, 4, 5, 6, 7]) 8 8).1 = true ∧
    7 ∈ ExtendibleHashTable.getValue 8 cexHash (cexRun [0, 1, 2, 3, 4, 5, 6, 7, 8]) 7 ∧
    (ExtendibleHashTable.insert 8 512 cexHash (cexRun [0, 1, 2, 3, 4, 5, 6, 7, 8]) 9 9).1
      = false ∧
    ¬ 7 ∈ ExtendibleHashTable.getValue 8 cexHash (cexRun [0, 1, 2, 3, 4, 5, 6, 7, 8, 9]) 7 := by
  refine ⟨by decide, by decide, by decide, by decide, by decide⟩

end DBMS
